import Mathlib

/-!
Verification of the projetBI scraping-and-enrichment pipeline
(`scripts/app/scrap.py`, `scripts/app/nlp_utils.py`, `scripts/app/config.py`).

Modelling conventions:
* Python `str` is modelled as `List Char` (abbreviated `Str`); string literals
  are written with `String.toList`.
* Python `str.split()` (split on whitespace runs, dropping empty pieces) is
  `pySplit`; `str.strip()` is `pyStrip`; `"x".join` is `joinSep`.
* `re.sub(r"\s+", " ", text).strip()` (the body of `clean_text`) is modelled
  by `collapseWS` (each maximal whitespace run becomes one space) followed by
  `pyStrip`.
* External collaborators (spaCy, langdetect, TextBlob, pandas date parsing,
  the network and the HTML parsers) are oracles passed as function arguments;
  a `none` result models a raised exception where the source catches one.
* Python floats are modelled as rationals; machine float rounding is not
  relevant to any claim proved here.
-/

namespace ProjetBI

abbrev Str := List Char

/-- Python `str.split()` helper: accumulates the current word (reversed). -/
def splitAux : List Char → List Char → List (List Char)
  | [], acc => if acc.isEmpty then [] else [acc.reverse]
  | c :: cs, acc =>
    if c.isWhitespace then
      if acc.isEmpty then splitAux cs [] else acc.reverse :: splitAux cs []
    else
      splitAux cs (c :: acc)

/-- Python `str.split()` with no separator: split on whitespace runs,
dropping empty pieces. -/
def pySplit (s : Str) : List Str :=
  splitAux s []

/-- One step of `re.sub(r"\s+", " ", text)`: every maximal whitespace run
becomes a single space (emitted at the end of the run). -/
def collapseWS : List Char → List Char
  | [] => []
  | c :: cs =>
    match cs with
    | [] => if c.isWhitespace then [' '] else [c]
    | d :: cs' =>
      if c.isWhitespace then
        if d.isWhitespace then collapseWS (d :: cs')
        else ' ' :: collapseWS (d :: cs')
      else c :: collapseWS (d :: cs')

/-- Python `str.lstrip()` (whitespace). -/
def lstripWS (s : Str) : Str := s.dropWhile fun c => c.isWhitespace

/-- Python `str.rstrip()` (whitespace). -/
def rstripWS (s : Str) : Str := (s.reverse.dropWhile fun c => c.isWhitespace).reverse

/-- Python `str.strip()` (whitespace at both ends). -/
def pyStrip (s : Str) : Str := rstripWS (lstripWS s)

/-- `clean_text` from `nlp_utils.py`:
`text = re.sub(r"\s+", " ", text); return text.strip()`. -/
def clean_text (s : Str) : Str := pyStrip (collapseWS s)

/-- Python `sep.join(words)` for a one-character separator. -/
def joinSep (sep : Char) : List Str → Str
  | [] => []
  | w :: ws =>
    match ws with
    | [] => w
    | _ :: _ => w ++ sep :: joinSep sep ws

/-- `" ".join(words)`. -/
def joinWords : List Str → Str := joinSep ' '

/-- `";".join(items)`, used by `build_record` for the list-valued columns. -/
def joinSemi : List Str → Str := joinSep ';'

/-! ### Lemmas about `pySplit`, `collapseWS`, `pyStrip` and `joinWords` -/

theorem splitAux_nil (acc : List Char) :
    splitAux [] acc = if acc.isEmpty then [] else [acc.reverse] := rfl

theorem splitAux_cons_ws {c : Char} (h : c.isWhitespace = true) (cs acc) :
    splitAux (c :: cs) acc =
      if acc.isEmpty then splitAux cs [] else acc.reverse :: splitAux cs [] := by
  simp [splitAux, h]

theorem splitAux_cons_not_ws {c : Char} (h : c.isWhitespace = false) (cs acc) :
    splitAux (c :: cs) acc = splitAux cs (c :: acc) := by
  simp [splitAux, h]

theorem pySplit_nil : pySplit [] = [] := rfl

theorem pySplit_cons_ws {c : Char} (h : c.isWhitespace = true) (cs : Str) :
    pySplit (c :: cs) = pySplit cs := by
  simp [pySplit, splitAux_cons_ws h]

theorem pySplit_dropWhile (s : Str) :
    pySplit (s.dropWhile fun c => c.isWhitespace) = pySplit s := by
  induction s with
  | nil => rfl
  | cons c cs ih =>
    by_cases h : c.isWhitespace = true
    · rw [List.dropWhile_cons_of_pos h, ih, pySplit_cons_ws h]
    · rw [List.dropWhile_cons_of_neg (by simp [h])]

theorem splitAux_word {w : Str} (hw : ∀ c ∈ w, c.isWhitespace = false)
    (t : Str) (acc : List Char) :
    splitAux (w ++ t) acc = splitAux t (w.reverse ++ acc) := by
  induction w generalizing acc with
  | nil => simp
  | cons c cs ih =>
    have hc : c.isWhitespace = false := hw c (by simp)
    rw [List.cons_append, splitAux_cons_not_ws hc,
      ih (fun d hd => hw d (by simp [hd]))]
    simp

theorem pySplit_word {w : Str} (hne : w ≠ [])
    (hw : ∀ c ∈ w, c.isWhitespace = false) :
    pySplit w = [w] := by
  have := splitAux_word hw [] []
  simp only [List.append_nil] at this
  rw [pySplit, this, splitAux_nil]
  simp [hne]

theorem pySplit_word_cons {w : Str} (hne : w ≠ [])
    (hw : ∀ c ∈ w, c.isWhitespace = false)
    {d : Char} (hd : d.isWhitespace = true) (t : Str) :
    pySplit (w ++ d :: t) = w :: pySplit t := by
  have := splitAux_word hw (d :: t) []
  rw [pySplit, this, splitAux_cons_ws hd]
  simp [hne, pySplit]

theorem splitAux_ne_nil {acc : List Char} (hacc : acc ≠ []) (s : Str) :
    splitAux s acc ≠ [] := by
  induction s generalizing acc with
  | nil => simp [splitAux_nil, hacc]
  | cons c cs ih =>
    by_cases h : c.isWhitespace = true
    · rw [splitAux_cons_ws h]
      simp [hacc]
    · rw [splitAux_cons_not_ws (by simp_all) _ _]
      exact ih (by simp)

theorem pySplit_cons_not_ws_ne_nil {c : Char} (h : c.isWhitespace = false)
    (cs : Str) : pySplit (c :: cs) ≠ [] := by
  rw [pySplit, splitAux_cons_not_ws h]
  exact splitAux_ne_nil (by simp) cs

theorem splitAux_mem {s : Str} {acc w : List Char}
    (hacc : ∀ c ∈ acc, c.isWhitespace = false)
    (hmem : w ∈ splitAux s acc) :
    w ≠ [] ∧ ∀ c ∈ w, c.isWhitespace = false := by
  induction s generalizing acc with
  | nil =>
    rw [splitAux_nil] at hmem
    by_cases h : acc.isEmpty
    · simp [h] at hmem
    · simp [h] at hmem
      subst hmem
      constructor
      · simpa using fun h' => by simp [h'] at h
      · intro c hc
        exact hacc c (by simpa using hc)
  | cons c cs ih =>
    by_cases h : c.isWhitespace = true
    · rw [splitAux_cons_ws h] at hmem
      by_cases ha : acc.isEmpty
      · simp [ha] at hmem
        exact ih (by simp) hmem
      · simp [ha] at hmem
        rcases hmem with rfl | hmem
        · constructor
          · simpa using fun h' => by simp [h'] at ha
          · intro d hd
            exact hacc d (by simpa using hd)
        · exact ih (by simp) hmem
    · rw [splitAux_cons_not_ws (by simp_all)] at hmem
      refine ih ?_ hmem
      intro d hd
      rcases List.mem_cons.1 hd with rfl | hd
      · simpa using h
      · exact hacc d hd

/-- Every word produced by `pySplit` is nonempty and whitespace-free. -/
theorem pySplit_words {s : Str} {w : Str} (hmem : w ∈ pySplit s) :
    w ≠ [] ∧ ∀ c ∈ w, c.isWhitespace = false :=
  splitAux_mem (by simp) hmem

theorem pySplit_joinWords {ws : List Str}
    (h : ∀ w ∈ ws, w ≠ [] ∧ ∀ c ∈ w, c.isWhitespace = false) :
    pySplit (joinWords ws) = ws := by
  induction ws with
  | nil => rfl
  | cons w rest ih =>
    match rest with
    | [] =>
      have hw := h w (by simp)
      simpa [joinWords, joinSep] using pySplit_word hw.1 hw.2
    | v :: rest' =>
      have hw := h w (by simp)
      have : joinWords (w :: v :: rest') = w ++ ' ' :: joinWords (v :: rest') := by
        simp [joinWords, joinSep]
      rw [this, pySplit_word_cons hw.1 hw.2 (by decide),
        ih (fun u hu => h u (by simp [hu]))]

theorem dropWhile_of_forall_neg {p : α → Bool} {l : List α}
    (h : ∀ a ∈ l, p a = false) : l.dropWhile p = l := by
  cases l with
  | nil => rfl
  | cons a t => exact List.dropWhile_cons_of_neg (by simp [h a (by simp)])

theorem rstripWS_append (x y : Str) :
    rstripWS (x ++ y) = if rstripWS y = [] then rstripWS x else x ++ rstripWS y := by
  unfold rstripWS
  rw [List.reverse_append, List.dropWhile_append]
  by_cases h : (y.reverse.dropWhile fun c => c.isWhitespace).isEmpty
  · have h' : (y.reverse.dropWhile fun c => c.isWhitespace) = [] := by
      simpa [List.isEmpty_iff] using h
    simp [h, h']
  · have h' : (y.reverse.dropWhile fun c => c.isWhitespace).reverse ≠ [] := by
      simp [List.isEmpty_iff] at h
      simpa using h
    simp [h, h', List.reverse_append]

theorem rstripWS_all_not_ws {w : Str} (hw : ∀ c ∈ w, c.isWhitespace = false) :
    rstripWS w = w := by
  unfold rstripWS
  rw [dropWhile_of_forall_neg (by intro a ha; exact hw a (by simpa using ha))]
  simp

theorem rstripWS_space : rstripWS [' '] = [] := by decide

theorem lstripWS_cons_ws {c : Char} (h : c.isWhitespace = true) (t : Str) :
    lstripWS (c :: t) = lstripWS t := List.dropWhile_cons_of_pos h

theorem lstripWS_cons_not_ws {c : Char} (h : c.isWhitespace = false) (t : Str) :
    lstripWS (c :: t) = c :: t := List.dropWhile_cons_of_neg (by simp [h])

theorem pyStrip_cons_ws {c : Char} (h : c.isWhitespace = true) (t : Str) :
    pyStrip (c :: t) = pyStrip t := by
  unfold pyStrip
  rw [lstripWS_cons_ws h]

theorem collapseWS_nil : collapseWS [] = [] := rfl

theorem collapseWS_cons_ws {c : Char} (h : c.isWhitespace = true) (cs : Str) :
    collapseWS (c :: cs) =
      ' ' :: collapseWS (cs.dropWhile fun d => d.isWhitespace) := by
  induction cs generalizing c with
  | nil => simp [collapseWS, h]
  | cons d cs' ih =>
    by_cases hd : d.isWhitespace = true
    · rw [List.dropWhile_cons_of_pos hd, ← ih hd]
      simp [collapseWS, h, hd]
    · rw [List.dropWhile_cons_of_neg (by simp [hd])]
      simp only [Bool.not_eq_true] at hd
      simp [collapseWS, h, hd]

theorem collapseWS_cons_not_ws {c : Char} (h : c.isWhitespace = false) (cs : Str) :
    collapseWS (c :: cs) = c :: collapseWS cs := by
  cases cs with
  | nil => simp [collapseWS, h]
  | cons d cs' => simp [collapseWS, h]

theorem collapseWS_word {w : Str} (hw : ∀ c ∈ w, c.isWhitespace = false) (t : Str) :
    collapseWS (w ++ t) = w ++ collapseWS t := by
  induction w with
  | nil => simp
  | cons c cs ih =>
    rw [List.cons_append, collapseWS_cons_not_ws (hw c (by simp)),
      ih (fun d hd => hw d (by simp [hd]))]
    simp

theorem joinWords_cons_cons (w v : Str) (rest : List Str) :
    joinWords (w :: v :: rest) = w ++ ' ' :: joinWords (v :: rest) := rfl

theorem joinWords_ne_nil {x : Str} {xs : List Str} (hx : x ≠ []) :
    joinWords (x :: xs) ≠ [] := by
  cases xs with
  | nil => simpa [joinWords, joinSep] using hx
  | cons v rest =>
    rw [joinWords_cons_cons]
    cases x with
    | nil => exact absurd rfl hx
    | cons a t => simp

theorem clean_text_nil : clean_text [] = [] := by
  unfold clean_text
  rw [collapseWS_nil]
  rfl

theorem clean_text_eq_aux (n : Nat) :
    ∀ s : Str, s.length ≤ n → clean_text s = joinWords (pySplit s) := by
  induction n with
  | zero =>
    intro s hs
    have : s = [] := List.length_eq_zero.1 (Nat.le_zero.1 hs)
    subst this
    rw [clean_text_nil, pySplit_nil]
    rfl
  | succ n ih =>
    intro s hs
    cases s with
    | nil => rw [clean_text_nil, pySplit_nil]; rfl
    | cons c cs =>
      have hlen : cs.length ≤ n := by simpa using hs
      cases hc : c.isWhitespace with
      | true =>
        have h1 : clean_text (c :: cs) =
            clean_text (cs.dropWhile fun d => d.isWhitespace) := by
          unfold clean_text
          rw [collapseWS_cons_ws hc, pyStrip_cons_ws (by decide)]
        rw [h1, ih _ (le_trans (List.dropWhile_sublist _).length_le hlen),
          pySplit_dropWhile, pySplit_cons_ws hc]
      | false =>
        -- decompose into the leading word and the remainder
        have hdecomp : ((c :: cs).takeWhile fun d => !d.isWhitespace) ++
            ((c :: cs).dropWhile fun d => !d.isWhitespace) = c :: cs :=
          List.takeWhile_append_dropWhile _ (c :: cs)
        generalize hw' : ((c :: cs).takeWhile fun d => !d.isWhitespace) = w at hdecomp
        generalize hr' : ((c :: cs).dropWhile fun d => !d.isWhitespace) = rest at hdecomp
        have hwcons : w = c :: (cs.takeWhile fun d => !d.isWhitespace) := by
          rw [← hw', List.takeWhile_cons_of_pos (by simp [hc])]
        have hwne : w ≠ [] := by simp [hwcons]
        have hwall : ∀ d ∈ w, d.isWhitespace = false := by
          intro d hd
          rw [← hw'] at hd
          simpa using List.mem_takeWhile_imp hd
        have hrlen : rest.length ≤ cs.length := by
          have h1 : w.length + rest.length = cs.length + 1 := by
            rw [← List.length_append, hdecomp, List.length_cons]
          have h2 : 1 ≤ w.length := by
            rw [hwcons]; simp
          omega
        rw [← hdecomp]
        cases rest with
        | nil =>
          rw [List.append_nil]
          unfold clean_text pyStrip
          have hcol : collapseWS w = w := by
            have h6 := collapseWS_word hwall []
            rw [collapseWS_nil] at h6
            simpa using h6
          rw [hcol, lstripWS, dropWhile_of_forall_neg hwall, rstripWS_all_not_ws hwall,
            pySplit_word hwne hwall]
          rfl
        | cons d r2 =>
          have hd : d.isWhitespace = true := by
            have h5 := List.head?_dropWhile_not (fun d => !d.isWhitespace) (c :: cs)
            rw [hr'] at h5
            simpa using h5
          have hr2len : r2.length ≤ n := by
            have h3 := hrlen
            simp only [List.length_cons] at h3
            omega
          -- left-hand side: push `collapseWS` through the word and the space
          have hL1 : clean_text (w ++ d :: r2) =
              rstripWS (w ++ ' ' :: collapseWS (r2.dropWhile fun e => e.isWhitespace)) := by
            unfold clean_text pyStrip
            rw [collapseWS_word hwall, collapseWS_cons_ws hd]
            congr 1
            rw [hwcons, List.cons_append, lstripWS_cons_not_ws hc]
          have hsplitR : pySplit (w ++ d :: r2) = w :: pySplit r2 :=
            pySplit_word_cons hwne hwall hd r2
          cases hu : r2.dropWhile fun e => e.isWhitespace with
          | nil =>
            have hr2split : pySplit r2 = [] := by
              rw [← pySplit_dropWhile r2, hu, pySplit_nil]
            rw [hL1, hu, collapseWS_nil, hsplitR, hr2split]
            have hws : rstripWS (w ++ [' ']) = w := by
              rw [rstripWS_append]
              simp [rstripWS_space, rstripWS_all_not_ws hwall]
            rw [hws]
            rfl
          | cons e u2 =>
            have he : e.isWhitespace = false := by
              have h5 := List.head?_dropWhile_not (fun e => e.isWhitespace) r2
              rw [hu] at h5
              simpa using h5
            have hulen : (e :: u2).length ≤ n := by
              calc (e :: u2).length ≤ r2.length := by
                    rw [← hu]; exact (List.dropWhile_sublist _).length_le
                _ ≤ n := hr2len
            have hclean_u : clean_text (e :: u2) = joinWords (pySplit (e :: u2)) :=
              ih _ hulen
            have hrstrip_u : rstripWS (collapseWS (e :: u2)) =
                joinWords (pySplit (e :: u2)) := by
              rw [← hclean_u]
              unfold clean_text pyStrip
              rw [collapseWS_cons_not_ws he, lstripWS_cons_not_ws he,
                ← collapseWS_cons_not_ws he]
            obtain ⟨x, xs, hx⟩ : ∃ x xs, pySplit (e :: u2) = x :: xs := by
              cases hps : pySplit (e :: u2) with
              | nil => exact absurd hps (pySplit_cons_not_ws_ne_nil he u2)
              | cons x xs => exact ⟨x, xs, rfl⟩
            have hJne : joinWords (pySplit (e :: u2)) ≠ [] := by
              rw [hx]
              exact joinWords_ne_nil (pySplit_words (by rw [hx]; simp)).1
            have hr2split : pySplit r2 = pySplit (e :: u2) := by
              rw [← pySplit_dropWhile r2, hu]
            have hspace : rstripWS (' ' :: collapseWS (e :: u2)) =
                ' ' :: joinWords (pySplit (e :: u2)) := by
              have h4 : (' ' :: collapseWS (e :: u2)) = [' '] ++ collapseWS (e :: u2) := rfl
              rw [h4, rstripWS_append, hrstrip_u]
              simp [hJne]
            rw [hL1, hu, hsplitR, hr2split, rstripWS_append, hspace,
              if_neg (by simp), hx, joinWords_cons_cons]

/-- `clean_text` rewrites any text to its whitespace-separated words joined by
single spaces. -/
theorem clean_text_eq (s : Str) : clean_text s = joinWords (pySplit s) :=
  clean_text_eq_aux s.length s le_rfl

/-- Splitting is invariant under cleaning: `clean_text(s).split() = s.split()`. -/
theorem pySplit_clean_text (s : Str) : pySplit (clean_text s) = pySplit s := by
  rw [clean_text_eq, pySplit_joinWords (fun w hw => pySplit_words hw)]

theorem joinWords_singleton (w : Str) : joinWords [w] = w := rfl

theorem joinWords_take_pre (l : List Str) (n : Nat) :
    joinWords (l.take n) <+: joinWords l := by
  induction l generalizing n with
  | nil => simp
  | cons w rest ih =>
    cases n with
    | zero => simp [joinWords, joinSep]
    | succ m =>
      rw [List.take_succ_cons]
      cases rest with
      | nil => simp
      | cons v rest' =>
        cases hm : (v :: rest').take m with
        | nil =>
          rw [joinWords_singleton, joinWords_cons_cons]
          exact List.prefix_append w _
        | cons p ps =>
          obtain ⟨t, ht⟩ := ih m
          rw [hm] at ht
          refine ⟨t, ?_⟩
          rw [joinWords_cons_cons, joinWords_cons_cons, ← ht]
          simp

/-! ### Lexicographic comparison (Python string `<`) and `sorted(...)` -/

/-- Python string comparison: lexicographic on code points. -/
def strLe : Str → Str → Bool
  | [], _ => true
  | _ :: _, [] => false
  | a :: as, b :: bs =>
    if a.toNat < b.toNat then true
    else if b.toNat < a.toNat then false
    else strLe as bs

def strLeP (a b : Str) : Prop := strLe a b = true

instance : DecidableRel strLeP :=
  fun a b => inferInstanceAs (Decidable (strLe a b = true))

theorem strLe_total : ∀ a b : Str, strLe a b = true ∨ strLe b a = true := by
  intro a
  induction a with
  | nil => intro b; left; rfl
  | cons x xs ih =>
    intro b
    cases b with
    | nil => right; rfl
    | cons y ys =>
      rcases Nat.lt_trichotomy x.toNat y.toNat with h | h | h
      · left; simp [strLe, h]
      · rcases ih ys with h2 | h2
        · left; simp [strLe, h, h2]
        · right; simp [strLe, h.symm, h2]
      · right; simp [strLe, h]

theorem strLe_trans :
    ∀ a b c : Str, strLe a b = true → strLe b c = true → strLe a c = true := by
  intro a
  induction a with
  | nil => intro b c _ _; rfl
  | cons x xs ih =>
    intro b c hab hbc
    cases b with
    | nil => simp [strLe] at hab
    | cons y ys =>
      cases c with
      | nil => simp [strLe] at hbc
      | cons z zs =>
        by_cases hxy : x.toNat < y.toNat
        · by_cases hyz : y.toNat < z.toNat
          · simp [strLe, Nat.lt_trans hxy hyz]
          · by_cases hzy : z.toNat < y.toNat
            · simp [strLe, hyz, hzy] at hbc
            · have hxz : x.toNat < z.toNat := by omega
              simp [strLe, hxz]
        · by_cases hyx : y.toNat < x.toNat
          · simp [strLe, hxy, hyx] at hab
          · simp [strLe, hxy, hyx] at hab
            by_cases hyz : y.toNat < z.toNat
            · have hxz : x.toNat < z.toNat := by omega
              simp [strLe, hxz]
            · by_cases hzy : z.toNat < y.toNat
              · simp [strLe, hyz, hzy] at hbc
              · simp [strLe, hyz, hzy] at hbc
                have hxz : ¬ x.toNat < z.toNat := by omega
                have hzx : ¬ z.toNat < x.toNat := by omega
                simp [strLe, hxz, hzx]
                exact ih ys zs hab hbc

instance : IsTotal Str strLeP := ⟨strLe_total⟩

instance : IsTrans Str strLeP := ⟨fun a b c => strLe_trans a b c⟩

/-- Python `sorted(found)` where `found` is a `set`: drop duplicates, then
sort lexicographically. -/
def pySortedSet (l : List Str) : List Str :=
  List.insertionSort strLeP l.dedup

theorem pySortedSet_sorted (l : List Str) :
    List.Sorted strLeP (pySortedSet l) :=
  List.sorted_insertionSort strLeP l.dedup

theorem pySortedSet_nodup (l : List Str) : (pySortedSet l).Nodup :=
  ((List.perm_insertionSort strLeP l.dedup).nodup_iff).2 (List.nodup_dedup l)

theorem mem_pySortedSet {x : Str} {l : List Str} :
    x ∈ pySortedSet l ↔ x ∈ l := by
  rw [pySortedSet, (List.perm_insertionSort strLeP l.dedup).mem_iff, List.mem_dedup]

/-! ### `summarize` -/

/-- `summarize` from `nlp_utils.py`:
`words = text.split(); if len(words) <= word_limit: return text;
return " ".join(words[:word_limit])`. -/
def summarize (text : Str) (word_limit : Nat) : Str :=
  let words := pySplit text
  if words.length ≤ word_limit then text
  else joinWords (words.take word_limit)

theorem summarize_token_count (t : Str) (n : Nat) :
    (pySplit (summarize t n)).length ≤ n := by
  unfold summarize
  by_cases h : (pySplit t).length ≤ n
  · simp [h]
  · simp only [h, if_false]
    rw [pySplit_joinWords (fun w hw => pySplit_words (List.take_subset _ _ hw))]
    exact List.length_take_le n (pySplit t)

theorem summarize_pre (t : Str) (hct : t = joinWords (pySplit t)) (n : Nat) :
    summarize t n <+: t := by
  unfold summarize
  by_cases h : (pySplit t).length ≤ n
  · simp [h]
  · simp only [h, if_false]
    conv_rhs => rw [hct]
    exact joinWords_take_pre _ _

theorem summarize_full (t : Str) (n : Nat) (h : (pySplit t).length ≤ n) :
    summarize t n = t := by
  simp [summarize, h]

/-- The output of `clean_text` is a fixed point of word-splitting-and-joining. -/
theorem clean_text_fix (s : Str) :
    clean_text s = joinWords (pySplit (clean_text s)) := by
  rw [pySplit_clean_text]
  exact clean_text_eq s

/-! ### Vocabulary tables from `nlp_utils.py` -/

/-- Shorthand: a Python `str` literal as a `List Char`. -/
def txt (s : String) : Str := s.toList

/-- Python substring containment `pat in t`. -/
def isSubstr : Str → Str → Bool
  | pat, [] => pat.isEmpty
  | pat, c :: cs => pat.isPrefixOf (c :: cs) || isSubstr pat cs

/-- Python `str.lower()`. The source vocabularies are already lower-case;
only the ASCII range matters for the concrete texts considered here. -/
def lowerS (s : Str) : Str := s.map Char.toLower

/-- `DISEASE_LIST` (flat vocabulary used by the spaCy-lemma fallback). -/
def DISEASE_LIST : List Str :=
  [txt "flu", txt "covid-19", txt "coronavirus", txt "dengue", txt "anthrax",
   txt "measles", txt "cholera", txt "ebola", txt "malaria", txt "tuberculosis",
   txt "cancer", txt "fever", txt "avian flu", txt "foot and mouth",
   txt "rift valley fever", txt "rabies", txt "brucellosis"]

/-- `DISEASE_VARIANTS`: canonical disease term → multilingual variants. -/
def DISEASE_VARIANTS : List (Str × List Str) :=
  [(txt "flu", [txt "flu", txt "influenza", txt "grippe", txt "انفلونزا", txt "الانفلونزا"]),
   (txt "covid-19", [txt "covid", txt "covid-19", txt "coronavirus", txt "sars-cov-2",
      txt "كورونا", txt "فيروس كورونا", txt "كوفيد", txt "كوفيد-19"]),
   (txt "malaria", [txt "malaria", txt "paludisme", txt "ملاريا", txt "الملاريا"]),
   (txt "cholera", [txt "cholera", txt "كوليرا", txt "الكوليرا"]),
   (txt "fever", [txt "fever", txt "fièvre", txt "حمى"]),
   (txt "rift valley fever", [txt "rift valley fever", txt "حمى الوادي المتصدع"]),
   (txt "rabies", [txt "rabies", txt "rage", txt "داء الكلب", txt "السعار"]),
   (txt "cancer", [txt "cancer", txt "سرطان"])]

/-- `ANIMAL_VARIANTS`: canonical animal term → multilingual variants. -/
def ANIMAL_VARIANTS : List (Str × List Str) :=
  [(txt "cat", [txt "cat", txt "chat", txt "قط", txt "قطط"]),
   (txt "dog", [txt "dog", txt "chien", txt "كلب", txt "كلاب"]),
   (txt "cow", [txt "cow", txt "cattle", txt "vache", txt "أبقار", txt "ابقار",
      txt "بقر", txt "بقرة"]),
   (txt "chicken", [txt "chicken", txt "poulet", txt "دجاج"]),
   (txt "poultry", [txt "poultry", txt "volaille", txt "دواجن"]),
   (txt "goat", [txt "goat", txt "chèvre", txt "ماعز"]),
   (txt "sheep", [txt "sheep", txt "mouton", txt "خراف", txt "أغنام", txt "اغنام"]),
   (txt "camel", [txt "camel", txt "chameau", txt "جمال", txt "إبل", txt "ابل"]),
   (txt "pig", [txt "pig", txt "swine", txt "porc", txt "خنازير", txt "خنزير"]),
   (txt "horse", [txt "horse", txt "cheval", txt "خيول", txt "حصان"]),
   (txt "bird", [txt "bird", txt "oiseau", txt "طيور"])]

/-- `AR_COUNTRY_TERMS`: Arabic country name → canonical English name. -/
def AR_COUNTRY_TERMS : List (Str × Str) :=
  [(txt "تونس", txt "Tunisia"), (txt "المغرب", txt "Morocco"),
   (txt "الجزائر", txt "Algeria"), (txt "مصر", txt "Egypt"),
   (txt "ليبيا", txt "Libya"), (txt "العراق", txt "Iraq"),
   (txt "سوريا", txt "Syria"), (txt "لبنان", txt "Lebanon"),
   (txt "الأردن", txt "Jordan"), (txt "السعودية", txt "Saudi Arabia"),
   (txt "اليمن", txt "Yemen"), (txt "الكويت", txt "Kuwait"),
   (txt "قطر", txt "Qatar"), (txt "الإمارات", txt "United Arab Emirates"),
   (txt "الامارات", txt "United Arab Emirates")]

/-! ### Enrichment functions from `nlp_utils.py`

spaCy, langdetect, TextBlob and pandas date parsing are external
collaborators; they enter as oracle functions. -/

/-- An entity produced by the spaCy NER collaborator: surface text and label
(`"GPE"`, `"LOC"`, `"ORG"`, `"DATE"`, ...). -/
structure Ent where
  text : Str
  label : Str
deriving DecidableEq

/-- The spaCy model, as an oracle: per-document token lemmas and entities. -/
structure Nlp where
  lemmas : Str → List Str
  ents : Str → List Ent

/-- `has_arabic`: does the text contain a character in U+0600..U+06FF? -/
def has_arabic (text : Str) : Bool :=
  text.any fun c => 0x600 ≤ c.toNat && c.toNat ≤ 0x6FF

/-- The dictionary pass shared by `detect_diseases_nlp` and `detect_animals`:
canonical terms any of whose variants occur in `text.lower()` or in `text`. -/
def canonHits (table : List (Str × List Str)) (text : Str) : List Str :=
  let text_low := lowerS text
  (table.filter fun p => p.2.any fun v => isSubstr v text_low || isSubstr v text).map
    Prod.fst

/-- The spaCy-lemma fallback of `detect_diseases_nlp`: lower-cased token
lemmas of `nlp(text_low)` that are in `DISEASE_LIST`. -/
def lemmaFallback (nlp : Nlp) (text : Str) : List Str :=
  ((nlp.lemmas (lowerS text)).map lowerS).filter fun l => DISEASE_LIST.contains l

/-- `detect_diseases_nlp`: dictionary pass, spaCy-lemma fallback only when the
dictionary found nothing, result `sorted(found)`. -/
def detect_diseases_nlp (nlp : Nlp) (text : Str) : List Str :=
  let dictHits := canonHits DISEASE_VARIANTS text
  let found := if dictHits.isEmpty then lemmaFallback nlp text else dictHits
  pySortedSet found

/-- `detect_animals`: dictionary pass only, result `sorted(found)`. -/
def detect_animals (text : Str) : List Str :=
  pySortedSet (canonHits ANIMAL_VARIANTS text)

/-- `detect_locations`: NER entities labelled GPE/LOC, plus direct search for
Arabic country names when the text contains Arabic script; `sorted(set(...))`. -/
def detect_locations (nlp : Nlp) (text : Str) : List Str :=
  let locs := ((nlp.ents text).filter fun e =>
    e.label == txt "GPE" || e.label == txt "LOC").map Ent.text
  let locs2 :=
    if has_arabic text then
      locs ++ (AR_COUNTRY_TERMS.filter fun p => isSubstr p.1 text).map Prod.snd
    else locs
  pySortedSet locs2

/-- `detect_organisations`: NER entities labelled ORG, `sorted(set(...))`. -/
def detect_organisations (nlp : Nlp) (text : Str) : List Str :=
  pySortedSet (((nlp.ents text).filter fun e => e.label == txt "ORG").map Ent.text)

/-- `detect_dates`: NER entities labelled DATE, each parsed and reformatted by
the pandas collaborator (`dateFmt`, `none` models an unparseable candidate,
which is dropped), then `sorted(set(...))`. -/
def detect_dates (nlp : Nlp) (dateFmt : Str → Option Str) (text : Str) : List Str :=
  let dates := ((nlp.ents text).filter fun e => e.label == txt "DATE").map Ent.text
  pySortedSet (dates.filterMap dateFmt)

/-- `detect_publication_source`: fixed keyword cascade over `text.lower()`. -/
def detect_publication_source (text : Str) : Str :=
  let text_low := lowerS text
  if isSubstr (txt "facebook") text_low ||
      isSubstr (txt "posted on social media") text_low then
    txt "Social Media"
  else if isSubstr (txt "twitter") text_low || isSubstr (txt "x.com") text_low then
    txt "Social Media"
  else if isSubstr (txt "ministry") text_low || isSubstr (txt "ministère") text_low ||
      isSubstr (txt "gov") text_low then
    txt "Official Source"
  else if isSubstr (txt "press") text_low || isSubstr (txt "journal") text_low ||
      isSubstr (txt "news agency") text_low then
    txt "Media"
  else if isSubstr (txt "tv") text_low || isSubstr (txt "radio") text_low ||
      isSubstr (txt "television") text_low then
    txt "Media (TV/Radio)"
  else
    txt "Unknown"

/-- `detect_language`: langdetect collaborator; an exception
(`LangDetectException`/`TypeError`, modelled by `none`) yields `"unknown"`. -/
def detect_language (langOf : Str → Option Str) (text : Str) : Str :=
  match langOf text with
  | some l => l
  | none => txt "unknown"

/-- `compute_sentiment`: `0.0` on empty text, the TextBlob polarity otherwise,
`0.0` if the scorer raises (modelled by `none`). Python floats are modelled
as rationals. -/
def compute_sentiment (polarity : Str → Option ℚ) (text : Str) : ℚ :=
  if text.isEmpty then 0
  else
    match polarity text with
    | some q => q
    | none => 0

/-! ### `build_record` -/

/-- The external collaborators used by `build_record`. `polarity` models
`TextBlob(...).sentiment.polarity` (`none` = scorer raised), `langOf` models
`langdetect.detect` (`none` = `LangDetectException`), `dateFmt` models
`pd.to_datetime(..., dayfirst=True)` followed by `strftime("%d-%m-%Y")`
(`none` = unparseable / `NaT`). -/
structure Collab where
  nlp : Nlp
  langOf : Str → Option Str
  polarity : Str → Option ℚ
  dateFmt : Str → Option Str

/-- A cell of the pandas DataFrame produced by `pd.read_csv`:
`absent` = the column does not exist (`row.get` returns `None`);
`nan` = the CSV field was empty (pandas reads it as float NaN, which is
*truthy* in Python); `val s` = a string value. -/
inductive Cell where
  | absent
  | nan
  | val (s : Str)
deriving DecidableEq

/-- One output record (the dict literals of `scrap.py` / the dict returned by
`build_record`). `scrape_status := []` models the key being absent until
`run_pipeline` assigns it. -/
structure Record where
  url : Cell
  title : Option Str
  text : Option Str
  language : Option Str
  char_count : Option Nat
  word_count : Option Nat
  publication_date_detected : Option Str
  dates_mentioned : Str
  locations : Str
  organisations : Str
  animals : Str
  diseases : Str
  source_nlp : Option Str
  sentiment : Option ℚ
  summary_50 : Option Str
  summary_100 : Option Str
  summary_150 : Option Str
  scrape_status : Str
deriving DecidableEq

/-- `build_record` from `nlp_utils.py`. `publication_date` is `some s` when
the pandas timestamp is truthy, with `s` its `strftime("%d-%m-%Y")`
rendering (the formatting itself is collaborator behaviour). -/
def build_record (co : Collab) (url : Cell) (title : Option Str) (text : Str)
    (publication_date : Option Str) : Record :=
  let t := clean_text text
  { url := url
    title := title
    text := some t
    language := some (detect_language co.langOf t)
    char_count := some t.length
    word_count := some (pySplit t).length
    publication_date_detected := publication_date
    dates_mentioned := joinSemi (detect_dates co.nlp co.dateFmt t)
    locations := joinSemi (detect_locations co.nlp t)
    organisations := joinSemi (detect_organisations co.nlp t)
    animals := joinSemi (detect_animals t)
    diseases := joinSemi (detect_diseases_nlp co.nlp t)
    source_nlp := some (detect_publication_source t)
    sentiment := some (compute_sentiment co.polarity t)
    summary_50 := some (summarize t 50)
    summary_100 := some (summarize t 100)
    summary_150 := some (summarize t 150)
    scrape_status := [] }

/-! ### `scrape_text` and `run_pipeline` from `scrap.py` -/

/-- `MIN_WORDS` from `config.py`. -/
def MIN_WORDS : Nat := 30

/-- A successfully downloaded-and-parsed Newspaper3k article (the `except`
branch of strategy 1 is the `none` case of the oracle). -/
structure NewsArt where
  title : Str
  text : Str
  publish_date : Option Str

/-- A successfully fetched page for the BeautifulSoup fallback: `titleRaw` is
`soup.title`s text (before `.strip()`), `paragraphs` the
`p.get_text(strip=True)` of each `<p>` tag. A request exception or a non-2xx
status (`raise_for_status`) is the `none` case of the oracle. -/
structure BsPage where
  titleRaw : Option Str
  paragraphs : List Str

/-- `scrape_text`: Newspaper3k first (accepted only when the body is truthy
with at least 10 words), then the BeautifulSoup fallback (accepted only when
the cleaned paragraph text has at least 10 words; otherwise the title may
still be returned with a null body). -/
def scrape_text (news : Cell → Option NewsArt) (fetchPage : Cell → Option BsPage)
    (url : Cell) : Option Str × Option Str × Option Str :=
  let fallback : Option Str × Option Str × Option Str :=
    match fetchPage url with
    | none => (none, none, none)
    | some pg =>
      let text := clean_text (joinSep '\n' pg.paragraphs)
      let title :=
        match pg.titleRaw with
        | some t => some (pyStrip t)
        | none => none
      if (pySplit text).length < 10 then (title, none, none)
      else (title, some text, none)
  match news url with
  | none => fallback
  | some a =>
    if a.text.isEmpty = false ∧ 10 ≤ (pySplit a.text).length then
      (some a.title, some a.text, a.publish_date)
    else fallback

/-- An input row: the `"lien"` and `"url"` cells. -/
structure Row where
  lien : Cell
  url : Cell

/-- Python truthiness of a cell value: `None` and `""` are falsy, NaN (an
empty CSV field) and nonempty strings are truthy. -/
def pyTruthy : Cell → Bool
  | .absent => false
  | .nan => true
  | .val s => !s.isEmpty

/-- `url = row.get("lien") or row.get("url"); if not url: continue`. -/
def rowUrl (r : Row) : Option Cell :=
  let u := if pyTruthy r.lien then r.lien else r.url
  if pyTruthy u then some u else none

def okStatus : Str := txt "ok"
def failedStatus : Str := txt "scrape_failed"
def shortStatus : Str := txt "too_short"

/-- The stub record appended when `not text` (`scrape_status: "scrape_failed"`). -/
def failedRecord (url : Cell) (title : Option Str) : Record :=
  { url := url, title := title, text := none, language := none,
    char_count := none, word_count := none, publication_date_detected := none,
    dates_mentioned := [], locations := [], organisations := [], animals := [],
    diseases := [], source_nlp := none, sentiment := none, summary_50 := none,
    summary_100 := none, summary_150 := none, scrape_status := failedStatus }

/-- The partial record appended when the text has fewer than `MIN_WORDS`
words (`scrape_status: "too_short"`). -/
def shortRecord (url : Cell) (title : Option Str) (text : Str) : Record :=
  { url := url, title := title, text := some text, language := none,
    char_count := some text.length, word_count := some (pySplit text).length,
    publication_date_detected := none, dates_mentioned := [], locations := [],
    organisations := [], animals := [], diseases := [], source_nlp := none,
    sentiment := none, summary_50 := none, summary_100 := none,
    summary_150 := none, scrape_status := shortStatus }

/-- The body of `run_pipeline`s `for` loop for one row: `none` when the row
is skipped (`continue`), otherwise the record appended to `results`. -/
def processRow (co : Collab) (news : Cell → Option NewsArt)
    (fetchPage : Cell → Option BsPage) (r : Row) : Option Record :=
  match rowUrl r with
  | none => none
  | some url =>
    match scrape_text news fetchPage url with
    | (title, textO, pub_date) =>
      match textO with
      | none => some (failedRecord url title)
      | some text =>
        if text.isEmpty then some (failedRecord url title)
        else if (pySplit text).length < MIN_WORDS then
          some (shortRecord url title text)
        else
          some { build_record co url title text pub_date with scrape_status := okStatus }

/-- `df_final.drop_duplicates(subset=["url"], keep="first")`: keep the first
record for each url, in order. -/
def dedupAux (seen : List Cell) : List Record → List Record
  | [] => []
  | r :: rs =>
    if r.url ∈ seen then dedupAux seen rs
    else r :: dedupAux (r.url :: seen) rs

def dedupByUrl (l : List Record) : List Record := dedupAux [] l

/-- `run_pipeline`: process every row, return `none` when no record was
produced (`if not results: return` — no dataset is written), otherwise the
deduplicated dataset. -/
def run_pipeline (co : Collab) (news : Cell → Option NewsArt)
    (fetchPage : Cell → Option BsPage) (rows : List Row) : Option (List Record) :=
  let results := rows.filterMap (processRow co news fetchPage)
  if results.isEmpty then none else some (dedupByUrl results)

/-- The `(failed_count, too_short_count)` counters of `run_pipeline`s loop:
incremented exactly when a `scrape_failed` (resp. `too_short`) record is
appended. -/
def pipeTally (co : Collab) (news : Cell → Option NewsArt)
    (fetchPage : Cell → Option BsPage) : List Row → Nat × Nat
  | [] => (0, 0)
  | r :: rs =>
    let rest := pipeTally co news fetchPage rs
    match processRow co news fetchPage r with
    | none => rest
    | some rec =>
      if rec.scrape_status = failedStatus then (rest.1 + 1, rest.2)
      else if rec.scrape_status = shortStatus then (rest.1, rest.2 + 1)
      else rest

/-! ### Lemmas about deduplication and the pipeline -/

theorem dedupAux_subset {seen : List Cell} {l : List Record} {rec : Record}
    (h : rec ∈ dedupAux seen l) : rec ∈ l := by
  induction l generalizing seen with
  | nil => simp [dedupAux] at h
  | cons r rs ih =>
    by_cases hr : r.url ∈ seen
    · simp only [dedupAux, if_pos hr] at h
      exact List.mem_cons_of_mem _ (ih h)
    · simp only [dedupAux, if_neg hr] at h
      rcases List.mem_cons.1 h with rfl | h
      · exact List.mem_cons_self _ _
      · exact List.mem_cons_of_mem _ (ih h)

theorem dedupAux_not_seen {seen : List Cell} {l : List Record} {rec : Record}
    (h : rec ∈ dedupAux seen l) : rec.url ∉ seen := by
  induction l generalizing seen with
  | nil => simp [dedupAux] at h
  | cons r rs ih =>
    by_cases hr : r.url ∈ seen
    · simp only [dedupAux, if_pos hr] at h
      exact ih h
    · simp only [dedupAux, if_neg hr] at h
      rcases List.mem_cons.1 h with rfl | h
      · exact hr
      · intro hmem
        exact ih h (List.mem_cons_of_mem _ hmem)

theorem dedupAux_urls_nodup (seen : List Cell) (l : List Record) :
    ((dedupAux seen l).map Record.url).Nodup := by
  induction l generalizing seen with
  | nil => simp [dedupAux]
  | cons r rs ih =>
    by_cases hr : r.url ∈ seen
    · simpa only [dedupAux, if_pos hr] using ih seen
    · simp only [dedupAux, if_neg hr, List.map_cons, List.nodup_cons]
      refine ⟨?_, ih _⟩
      intro hmem
      obtain ⟨rec, hrec, hu⟩ := List.mem_map.1 hmem
      exact dedupAux_not_seen hrec (by rw [hu]; exact List.mem_cons_self _ _)

theorem dedupAux_length (seen : List Cell) (l : List Record) :
    (dedupAux seen l).length ≤ l.length := by
  induction l generalizing seen with
  | nil => simp [dedupAux]
  | cons r rs ih =>
    by_cases hr : r.url ∈ seen
    · simp only [dedupAux, if_pos hr]
      exact Nat.le_succ_of_le (ih seen)
    · simp only [dedupAux, if_neg hr, List.length_cons]
      exact Nat.succ_le_succ (ih _)

theorem dedupAux_first {seen : List Cell} {l : List Record} {rec : Record}
    (h : rec ∈ dedupAux seen l) :
    ∃ l1 l2, l = l1 ++ rec :: l2 ∧ ∀ r' ∈ l1, r'.url ≠ rec.url := by
  induction l generalizing seen with
  | nil => simp [dedupAux] at h
  | cons r rs ih =>
    by_cases hr : r.url ∈ seen
    · simp only [dedupAux, if_pos hr] at h
      obtain ⟨l1, l2, heq, hne⟩ := ih h
      refine ⟨r :: l1, l2, by rw [heq, List.cons_append], ?_⟩
      intro r' hr'
      rcases List.mem_cons.1 hr' with rfl | hr'
      · exact fun he => dedupAux_not_seen h (he ▸ hr)
      · exact hne r' hr'
    · simp only [dedupAux, if_neg hr] at h
      rcases List.mem_cons.1 h with rfl | h
      · exact ⟨[], rs, rfl, by simp⟩
      · obtain ⟨l1, l2, heq, hne⟩ := ih h
        have hns := dedupAux_not_seen h
        refine ⟨r :: l1, l2, by rw [heq, List.cons_append], ?_⟩
        intro r' hr'
        rcases List.mem_cons.1 hr' with rfl | hr'
        · exact fun he => hns (by rw [← he]; exact List.mem_cons_self _ _)
        · exact hne r' hr'

theorem dedupAux_cover {l : List Record} {r' : Record}
    (h : r' ∈ l) (seen : List Cell) :
    r'.url ∈ seen ∨ ∃ rec ∈ dedupAux seen l, rec.url = r'.url := by
  induction l generalizing seen with
  | nil => simp at h
  | cons r rs ih =>
    by_cases hr : r.url ∈ seen
    · rcases List.mem_cons.1 h with he | h
      · exact Or.inl (he ▸ hr)
      · rcases ih h seen with hs | ⟨rec, hrec, hu⟩
        · exact Or.inl hs
        · exact Or.inr ⟨rec, by simp only [dedupAux, if_pos hr]; exact hrec, hu⟩
    · rcases List.mem_cons.1 h with he | h
      · exact Or.inr ⟨r, by simp only [dedupAux, if_neg hr]; exact List.mem_cons_self _ _,
          by rw [he]⟩
      · rcases ih h (r.url :: seen) with hs | ⟨rec, hrec, hu⟩
        · rcases List.mem_cons.1 hs with he | hs2
          · refine Or.inr ⟨r, by simp only [dedupAux, if_neg hr]; exact List.mem_cons_self _ _,
              he.symm⟩
          · exact Or.inl hs2
        · exact Or.inr ⟨rec,
            by simp only [dedupAux, if_neg hr]; exact List.mem_cons_of_mem _ hrec, hu⟩

theorem run_pipeline_some {co : Collab} {news : Cell → Option NewsArt}
    {fetchPage : Cell → Option BsPage} {rows : List Row} {out : List Record}
    (h : run_pipeline co news fetchPage rows = some out) :
    out = dedupByUrl (rows.filterMap (processRow co news fetchPage)) := by
  unfold run_pipeline at h
  by_cases he : (rows.filterMap (processRow co news fetchPage)).isEmpty
  · simp [he] at h
  · simp only [he, if_neg, if_false] at h
    exact (Option.some_injective _ h).symm

theorem processRow_statusInv {co : Collab} {news : Cell → Option NewsArt}
    {fetchPage : Cell → Option BsPage} {r : Row} {rec : Record}
    (h : processRow co news fetchPage r = some rec) :
    (rec.scrape_status = okStatus ∨ rec.scrape_status = failedStatus ∨
        rec.scrape_status = shortStatus) ∧
      (rec.scrape_status = okStatus →
        ∃ n, rec.word_count = some n ∧ MIN_WORDS ≤ n) ∧
      (rec.scrape_status = shortStatus →
        ∃ n, rec.word_count = some n ∧ n < MIN_WORDS) ∧
      (rec.scrape_status = failedStatus → rec.text = none) := by
  unfold processRow at h
  cases hu : rowUrl r with
  | none =>
    rw [hu] at h
    exact absurd h (by simp)
  | some url =>
    rw [hu] at h
    simp only at h
    rcases hs : scrape_text news fetchPage url with ⟨title, textO, pub⟩
    rw [hs] at h
    simp only at h
    cases textO with
    | none =>
      simp only [Option.some.injEq] at h
      subst h
      refine ⟨Or.inr (Or.inl rfl), ?_, ?_, fun _ => rfl⟩
      · intro hok
        exact absurd hok (by decide : failedStatus ≠ okStatus)
      · intro hshort
        exact absurd hshort (by decide : failedStatus ≠ shortStatus)
    | some text =>
      simp only at h
      split_ifs at h with hempty hlen
      · simp only [Option.some.injEq] at h
        subst h
        refine ⟨Or.inr (Or.inl rfl), ?_, ?_, fun _ => rfl⟩
        · intro hok
          exact absurd hok (by decide : failedStatus ≠ okStatus)
        · intro hshort
          exact absurd hshort (by decide : failedStatus ≠ shortStatus)
      · simp only [Option.some.injEq] at h
        subst h
        refine ⟨Or.inr (Or.inr rfl), ?_, ?_, ?_⟩
        · intro hok
          exact absurd hok (by decide : shortStatus ≠ okStatus)
        · intro _
          exact ⟨(pySplit text).length, rfl, hlen⟩
        · intro hfail
          exact absurd hfail (by decide : shortStatus ≠ failedStatus)
      · simp only [Option.some.injEq] at h
        subst h
        refine ⟨Or.inl rfl, ?_, ?_, ?_⟩
        · intro _
          refine ⟨(pySplit (clean_text text)).length, rfl, ?_⟩
          rw [pySplit_clean_text]
          omega
        · intro hshort
          exact absurd hshort (by decide : okStatus ≠ shortStatus)
        · intro hfail
          exact absurd hfail (by decide : okStatus ≠ failedStatus)

/-! ### Concrete instances used for witnesses and counterexamples -/

/-- A spaCy oracle returning no tokens and no entities. -/
def trivNlp : Nlp := ⟨fun _ => [], fun _ => []⟩

/-- Collaborators that all fail/return nothing. -/
def trivCollab : Collab := ⟨trivNlp, fun _ => none, fun _ => none, fun _ => none⟩

def url0 : Cell := Cell.val (txt "http://example.org/a")

def row0 : Row := ⟨url0, Cell.absent⟩

/-! ### The claims -/

/-- C1: every record in the dataset emitted by `run_pipeline` carries one of
the three statuses; `ok` records have `word_count ≥ MIN_WORDS`, `too_short`
records have `word_count < MIN_WORDS`, and `scrape_failed` records have a
null `text` field. -/
theorem claim_C1 (co : Collab) (news : Cell → Option NewsArt)
    (fetchPage : Cell → Option BsPage) (rows : List Row) (out : List Record)
    (hout : run_pipeline co news fetchPage rows = some out)
    (rec : Record) (hrec : rec ∈ out) :
    (rec.scrape_status = okStatus ∨ rec.scrape_status = failedStatus ∨
        rec.scrape_status = shortStatus) ∧
      (rec.scrape_status = okStatus →
        ∃ n, rec.word_count = some n ∧ MIN_WORDS ≤ n) ∧
      (rec.scrape_status = shortStatus →
        ∃ n, rec.word_count = some n ∧ n < MIN_WORDS) ∧
      (rec.scrape_status = failedStatus → rec.text = none) := by
  rw [run_pipeline_some hout] at hrec
  obtain ⟨r, _, hpr⟩ := List.mem_filterMap.1 (dedupAux_subset hrec)
  exact processRow_statusInv hpr

/-- Witness for C1 at a concrete run (one URL, both strategies failing). -/
theorem claim_C1_witness : (failedRecord url0 none).text = none :=
  (claim_C1 trivCollab (fun _ => none) (fun _ => none) [row0]
      [failedRecord url0 none] (by decide) (failedRecord url0 none)
      (by decide)).2.2.2 rfl

/-- C2: the emitted dataset has pairwise-distinct urls, no more rows than the
input, and each emitted record is the first record produced for its url (in
input order); moreover every produced url is represented. -/
theorem claim_C2 (co : Collab) (news : Cell → Option NewsArt)
    (fetchPage : Cell → Option BsPage) (rows : List Row) (out : List Record)
    (hout : run_pipeline co news fetchPage rows = some out) :
    (out.map Record.url).Nodup ∧
      out.length ≤ rows.length ∧
      (∀ rec ∈ out, ∃ l1 l2,
        rows.filterMap (processRow co news fetchPage) = l1 ++ rec :: l2 ∧
          ∀ r' ∈ l1, r'.url ≠ rec.url) ∧
      (∀ r' ∈ rows.filterMap (processRow co news fetchPage),
        ∃ rec ∈ out, rec.url = r'.url) := by
  have hout' := run_pipeline_some hout
  subst hout'
  refine ⟨dedupAux_urls_nodup [] _, ?_, ?_, ?_⟩
  · exact le_trans (dedupAux_length [] _) (List.length_filterMap_le _ _)
  · intro rec hrec
    exact dedupAux_first hrec
  · intro r' hr'
    rcases dedupAux_cover hr' [] with hs | h
    · simp at hs
    · exact h

/-- Witness for C2 at a concrete run with a duplicated URL. -/
theorem claim_C2_witness : ([failedRecord url0 none].map Record.url).Nodup :=
  (claim_C2 trivCollab (fun _ => none) (fun _ => none) [row0, row0]
      [failedRecord url0 none] (by decide)).1

/-- The test sentence of the spec (section 8). -/
def c3text : Str :=
  txt "Avian flu outbreak reported in chickens and cows near Cairo, Egypt, ministry confirms."

/-- A spaCy oracle that tags Cairo and Egypt as LOC entities on the test
sentence (the label the configured `xx_ent_wiki_sm` WikiNER model, whose
label set is PER/LOC/ORG/MISC, actually emits for them). -/
def c3Nlp : Nlp :=
  ⟨fun _ => [], fun _ => [⟨txt "Cairo", txt "LOC"⟩, ⟨txt "Egypt", txt "LOC"⟩]⟩

/-- C3 counterexample: on the spec's test sentence the dictionary pass hits
the variant `"flu"` (inside "Avian flu") and returns the canonical term
`"flu"`; `"avian flu"` is never returned, because the fallback vocabulary
(which contains `"avian flu"`) is not consulted after a dictionary hit. -/
theorem claim_C3_counterexample :
    detect_diseases_nlp trivNlp c3text = [txt "flu"] ∧
      txt "avian flu" ∉ detect_diseases_nlp trivNlp c3text := by decide

/-- C3 (amended): on the test sentence, `detect_diseases_nlp` returns exactly
`["flu"]` (not `"avian flu"`) for every spaCy oracle; animals include chicken
and cow; locations include Cairo and Egypt provided the NER collaborator tags
them GPE or LOC (either label passes the filter; the configured
`xx_ent_wiki_sm` model emits LOC); the source classifies as Official Source. -/
theorem claim_C3_amended (nlp : Nlp)
    (hCairo : (⟨txt "Cairo", txt "GPE"⟩ : Ent) ∈ nlp.ents c3text ∨
      (⟨txt "Cairo", txt "LOC"⟩ : Ent) ∈ nlp.ents c3text)
    (hEgypt : (⟨txt "Egypt", txt "GPE"⟩ : Ent) ∈ nlp.ents c3text ∨
      (⟨txt "Egypt", txt "LOC"⟩ : Ent) ∈ nlp.ents c3text) :
    detect_diseases_nlp nlp c3text = [txt "flu"] ∧
      txt "avian flu" ∉ detect_diseases_nlp nlp c3text ∧
      txt "chicken" ∈ detect_animals c3text ∧
      txt "cow" ∈ detect_animals c3text ∧
      txt "Cairo" ∈ detect_locations nlp c3text ∧
      txt "Egypt" ∈ detect_locations nlp c3text ∧
      detect_publication_source c3text = txt "Official Source" := by
  have hdict : canonHits DISEASE_VARIANTS c3text = [txt "flu"] := by decide
  have hdet : detect_diseases_nlp nlp c3text = [txt "flu"] := by
    unfold detect_diseases_nlp
    rw [hdict]
    simp only [List.isEmpty_cons, Bool.false_eq_true, if_false]
    decide
  have harab : has_arabic c3text = false := by decide
  have hloc : ∀ e : Ent, e ∈ nlp.ents c3text →
      (e.label == txt "GPE" || e.label == txt "LOC") = true →
      e.text ∈ detect_locations nlp c3text := by
    intro e he hlab
    unfold detect_locations
    rw [harab]
    simp only [Bool.false_eq_true, if_false]
    rw [mem_pySortedSet]
    exact List.mem_map.2 ⟨e, List.mem_filter.2 ⟨he, hlab⟩, rfl⟩
  refine ⟨hdet, by rw [hdet]; decide, by decide, by decide, ?_, ?_, by decide⟩
  · rcases hCairo with h | h
    · exact hloc _ h (by decide)
    · exact hloc _ h (by decide)
  · rcases hEgypt with h | h
    · exact hloc _ h (by decide)
    · exact hloc _ h (by decide)

/-- Witness for the amended C3 at the concrete oracle `c3Nlp`, which tags
Cairo and Egypt with the LOC label. -/
theorem claim_C3_witness :
    txt "Cairo" ∈ detect_locations c3Nlp c3text ∧
      txt "Egypt" ∈ detect_locations c3Nlp c3text :=
  ⟨(claim_C3_amended c3Nlp (Or.inr (by decide)) (Or.inr (by decide))).2.2.2.2.1,
   (claim_C3_amended c3Nlp (Or.inr (by decide)) (Or.inr (by decide))).2.2.2.2.2.1⟩

/-- A fallback page with a title but no paragraphs (e.g. a 200 page whose
body yields fewer than 10 words). -/
def bsTitlePage : BsPage := ⟨some (txt " Example Domain "), []⟩

/-- C4 counterexample: a URL for which both strategies fail to yield a
non-null body, yet the stored stub has a non-null content field: the
fallback fetched the page, its body was empty, and its `<title>` is kept in
the stub. So "all content fields are null" is false as stated. -/
theorem claim_C4_counterexample :
    (scrape_text (fun _ => none) (fun _ => some bsTitlePage) url0).2.1 = none ∧
      processRow trivCollab (fun _ => none) (fun _ => some bsTitlePage) row0 =
        some (failedRecord url0 (some (txt "Example Domain"))) ∧
      (failedRecord url0 (some (txt "Example Domain"))).title ≠ none := by decide

/-- C4 (amended): whenever both extraction strategies fail to yield a
non-null body, `run_pipeline`s loop stores a scrape_failed stub whose text
and all text-derived fields are null and whose enrichment lists are empty;
no exception reaches the caller (every exception path of `scrape_text`
returns a value instead). The title is null when both fetches raise (e.g.
both HTTP 404), but may be non-null when the fallback fetched a page whose
body was too short. -/
theorem claim_C4_amended (co : Collab) (news : Cell → Option NewsArt)
    (fetchPage : Cell → Option BsPage) (r : Row) (u : Cell)
    (hu : rowUrl r = some u)
    (hfail : (scrape_text news fetchPage u).2.1 = none) :
    processRow co news fetchPage r =
        some (failedRecord u (scrape_text news fetchPage u).1) ∧
      (failedRecord u (scrape_text news fetchPage u).1).scrape_status = failedStatus ∧
      (failedRecord u (scrape_text news fetchPage u).1).text = none ∧
      (failedRecord u (scrape_text news fetchPage u).1).language = none ∧
      (failedRecord u (scrape_text news fetchPage u).1).char_count = none ∧
      (failedRecord u (scrape_text news fetchPage u).1).word_count = none ∧
      (failedRecord u (scrape_text news fetchPage u).1).publication_date_detected = none ∧
      (failedRecord u (scrape_text news fetchPage u).1).dates_mentioned = [] ∧
      (failedRecord u (scrape_text news fetchPage u).1).locations = [] ∧
      (failedRecord u (scrape_text news fetchPage u).1).organisations = [] ∧
      (failedRecord u (scrape_text news fetchPage u).1).animals = [] ∧
      (failedRecord u (scrape_text news fetchPage u).1).diseases = [] ∧
      (failedRecord u (scrape_text news fetchPage u).1).source_nlp = none ∧
      (failedRecord u (scrape_text news fetchPage u).1).sentiment = none ∧
      (failedRecord u (scrape_text news fetchPage u).1).summary_50 = none ∧
      (news u = none → fetchPage u = none →
        (scrape_text news fetchPage u).1 = none) := by
  refine ⟨?_, rfl, rfl, rfl, rfl, rfl, rfl, rfl, rfl, rfl, rfl, rfl, rfl, rfl, rfl, ?_⟩
  · unfold processRow
    rw [hu]
    simp only
    rcases hs : scrape_text news fetchPage u with ⟨title, textO, pub⟩
    rw [hs] at hfail
    simp only at hfail
    subst hfail
    rfl
  · intro hn hf
    unfold scrape_text
    rw [hn, hf]

/-- Witness for the amended C4: both fetches raise (e.g. HTTP 404 twice). -/
theorem claim_C4_witness :
    processRow trivCollab (fun _ => none) (fun _ => none) row0 =
        some (failedRecord url0
          (scrape_text (fun _ => none) (fun _ => none) url0).1) ∧
      (scrape_text (fun _ => none) (fun _ => none) url0).1 = none :=
  ⟨(claim_C4_amended trivCollab (fun _ => none) (fun _ => none) row0 url0
      (by decide) (by decide)).1,
   (claim_C4_amended trivCollab (fun _ => none) (fun _ => none) row0 url0
      (by decide) (by decide)).2.2.2.2.2.2.2.2.2.2.2.2.2.2.2 rfl rfl⟩

/-- C9 counterexample: a row whose two cells are empty CSV fields is *not*
skipped: pandas reads an empty field as float NaN, `NaN or NaN` is NaN, and
`not NaN` is `False`, so the row is processed; scraping the NaN "url" fails,
a scrape_failed record with url NaN is stored, and the failure counter
counts it. -/
theorem claim_C9_counterexample :
    processRow trivCollab (fun _ => none) (fun _ => none) ⟨Cell.nan, Cell.nan⟩ =
        some (failedRecord Cell.nan none) ∧
      pipeTally trivCollab (fun _ => none) (fun _ => none)
          [⟨Cell.nan, Cell.nan⟩] = (1, 0) ∧
      run_pipeline trivCollab (fun _ => none) (fun _ => none)
          [⟨Cell.nan, Cell.nan⟩] = some [failedRecord Cell.nan none] := by
  decide

/-- C9 (amended): a row whose effective url value is Python-falsy — both
cells absent (`row.get` returns None), or the value an empty string — is
silently skipped: no record is emitted for it, it contributes to neither the
failed nor the too-short counter, and the final dataset is unchanged. (A row
whose cells are *empty CSV fields* is not covered: pandas reads those as NaN,
which is truthy, so such a row is processed — see the counterexample.) -/
theorem claim_C9_amended (co : Collab) (news : Cell → Option NewsArt)
    (fetchPage : Cell → Option BsPage) (r : Row) (rows : List Row)
    (h1 : pyTruthy r.lien = false) (h2 : pyTruthy r.url = false) :
    rowUrl r = none ∧
      processRow co news fetchPage r = none ∧
      pipeTally co news fetchPage (r :: rows) = pipeTally co news fetchPage rows ∧
      run_pipeline co news fetchPage (r :: rows) =
        run_pipeline co news fetchPage rows := by
  have hu : rowUrl r = none := by
    simp [rowUrl, h1, h2]
  have hp : processRow co news fetchPage r = none := by
    unfold processRow
    rw [hu]
  refine ⟨hu, hp, ?_, ?_⟩
  · simp [pipeTally, hp]
  · unfold run_pipeline
    rw [List.filterMap_cons_none hp]

/-- Witness for the amended C9: both cells missing / an empty string. -/
theorem claim_C9_witness :
    processRow trivCollab (fun _ => none) (fun _ => none)
        ⟨Cell.absent, Cell.val []⟩ = none ∧
      run_pipeline trivCollab (fun _ => none) (fun _ => none)
          [⟨Cell.absent, Cell.val []⟩, row0] =
        run_pipeline trivCollab (fun _ => none) (fun _ => none) [row0] :=
  ⟨(claim_C9_amended trivCollab (fun _ => none) (fun _ => none)
      ⟨Cell.absent, Cell.val []⟩ [] (by decide) (by decide)).2.1,
   (claim_C9_amended trivCollab (fun _ => none) (fun _ => none)
      ⟨Cell.absent, Cell.val []⟩ [row0] (by decide) (by decide)).2.2.2⟩

/-- C10: any text whose lowercased form contains the raw substring "gov" —
also inside unrelated words such as "governor" — and none of the
social-media keywords, and neither "ministry" nor "ministère", classifies as
Official Source: keyword rules match by substring containment, not whole
words. -/
theorem claim_C10 (t : Str)
    (hgov : isSubstr (txt "gov") (lowerS t) = true)
    (hfb : isSubstr (txt "facebook") (lowerS t) = false)
    (hpsm : isSubstr (txt "posted on social media") (lowerS t) = false)
    (htw : isSubstr (txt "twitter") (lowerS t) = false)
    (hxc : isSubstr (txt "x.com") (lowerS t) = false)
    (hmin : isSubstr (txt "ministry") (lowerS t) = false)
    (hminfr : isSubstr (txt "ministère") (lowerS t) = false) :
    detect_publication_source t = txt "Official Source" := by
  simp [detect_publication_source, hgov, hfb, hpsm, htw, hxc, hmin, hminfr]

/-- Witness for C10: "governor" triggers the "gov" rule. -/
theorem claim_C10_witness :
    detect_publication_source (txt "The governor spoke to officials.") =
      txt "Official Source" :=
  claim_C10 (txt "The governor spoke to officials.") (by decide) (by decide)
    (by decide) (by decide) (by decide) (by decide) (by decide)

/-- C5: `detect_diseases_nlp` tries the dictionary first; the lemma fallback
is consulted exactly when the dictionary pass found nothing (in particular,
with a dictionary hit the result is independent of the spaCy oracle); the
result is always a duplicate-free lexicographically sorted list whose
elements are canonical dictionary terms or flat-vocabulary terms. -/
theorem claim_C5 (nlp nlp' : Nlp) (text : Str) :
    (canonHits DISEASE_VARIANTS text ≠ [] →
        detect_diseases_nlp nlp text =
            pySortedSet (canonHits DISEASE_VARIANTS text) ∧
          detect_diseases_nlp nlp text = detect_diseases_nlp nlp' text) ∧
      (canonHits DISEASE_VARIANTS text = [] →
        detect_diseases_nlp nlp text = pySortedSet (lemmaFallback nlp text)) ∧
      List.Sorted strLeP (detect_diseases_nlp nlp text) ∧
      (detect_diseases_nlp nlp text).Nodup ∧
      (∀ x ∈ detect_diseases_nlp nlp text,
        x ∈ DISEASE_VARIANTS.map Prod.fst ∨ x ∈ DISEASE_LIST) := by
  refine ⟨?_, ?_, ?_, ?_, ?_⟩
  · intro hne
    have hemp : (canonHits DISEASE_VARIANTS text).isEmpty = false := by
      cases hc : canonHits DISEASE_VARIANTS text with
      | nil => exact absurd hc hne
      | cons a l => simp
    constructor
    · simp [detect_diseases_nlp, hemp]
    · simp [detect_diseases_nlp, hemp]
  · intro hnil
    simp [detect_diseases_nlp, hnil, lemmaFallback]
  · exact pySortedSet_sorted _
  · exact pySortedSet_nodup _
  · intro x hx
    have hx' : x ∈ (if (canonHits DISEASE_VARIANTS text).isEmpty
        then lemmaFallback nlp text else canonHits DISEASE_VARIANTS text) :=
      mem_pySortedSet.1 hx
    by_cases he : (canonHits DISEASE_VARIANTS text).isEmpty
    · rw [if_pos he] at hx'
      right
      have hmem := (List.mem_filter.1 hx').2
      simpa using hmem
    · rw [if_neg he] at hx'
      left
      unfold canonHits at hx'
      obtain ⟨p, hp, hpx⟩ := List.mem_map.1 hx'
      exact List.mem_map.2 ⟨p, (List.mem_filter.1 hp).1, hpx⟩

/-- Witness for C5 on the concrete test sentence (dictionary pass hits). -/
theorem claim_C5_witness :
    detect_diseases_nlp trivNlp c3text =
        pySortedSet (canonHits DISEASE_VARIANTS c3text) ∧
      List.Sorted strLeP (detect_diseases_nlp trivNlp c3text) ∧
      (detect_diseases_nlp trivNlp c3text).Nodup :=
  ⟨((claim_C5 trivNlp trivNlp c3text).1 (by decide)).1,
   (claim_C5 trivNlp trivNlp c3text).2.2.1,
   (claim_C5 trivNlp trivNlp c3text).2.2.2.1⟩

/-! ### C6: the keyword cascade, spec-side formulation -/

/-- The spec's ordered rule table: keyword group → label, first match wins. -/
def sourceRules : List (List Str × Str) :=
  [([txt "facebook", txt "posted on social media", txt "twitter", txt "x.com"],
      txt "Social Media"),
   ([txt "ministry", txt "ministère", txt "gov"], txt "Official Source"),
   ([txt "press", txt "journal", txt "news agency"], txt "Media"),
   ([txt "tv", txt "radio", txt "television"], txt "Media (TV/Radio)")]

/-- First-match-wins evaluation of an ordered rule table, default Unknown. -/
def firstMatch : List (List Str × Str) → Str → Str
  | [], _ => txt "Unknown"
  | (kws, label) :: rest, text_low =>
    if kws.any fun k => isSubstr k text_low then label
    else firstMatch rest text_low

/-- The cascade as the spec words it: social-media terms → Social Media,
government/ministry terms → Official Source, press terms → Media, broadcast
terms → Media (TV/Radio), else Unknown, over the lowercased text. -/
def cascadeSpec (text : Str) : Str := firstMatch sourceRules (lowerS text)

/-- C6: `detect_publication_source` is exactly the spec's first-match-wins
keyword cascade, checked in the stated order. -/
theorem claim_C6 (t : Str) : detect_publication_source t = cascadeSpec t := by
  simp only [detect_publication_source, cascadeSpec, sourceRules, firstMatch,
    List.any_cons, List.any_nil, Bool.or_false]
  cases h1 : isSubstr (txt "facebook") (lowerS t) <;>
    cases h2 : isSubstr (txt "posted on social media") (lowerS t) <;>
      cases h3 : isSubstr (txt "twitter") (lowerS t) <;>
        cases h4 : isSubstr (txt "x.com") (lowerS t) <;>
          simp [Bool.or_assoc]

/-- C7: in every record built by `build_record`, each summary is the
`summarize` of the cleaned text stored in the record; it has at most
50/100/150 whitespace-separated tokens, is a prefix of the cleaned text, and
equals the full cleaned text when that text has at most that many tokens. -/
theorem claim_C7 (co : Collab) (url : Cell) (title : Option Str) (text : Str)
    (pub : Option Str) :
    ∃ ct, (build_record co url title text pub).text = some ct ∧
      (build_record co url title text pub).summary_50 = some (summarize ct 50) ∧
      (build_record co url title text pub).summary_100 = some (summarize ct 100) ∧
      (build_record co url title text pub).summary_150 = some (summarize ct 150) ∧
      ∀ n ∈ [50, 100, 150],
        (pySplit (summarize ct n)).length ≤ n ∧
          summarize ct n <+: ct ∧
          ((pySplit ct).length ≤ n → summarize ct n = ct) := by
  refine ⟨clean_text text, rfl, rfl, rfl, rfl, ?_⟩
  intro n _
  exact ⟨summarize_token_count _ n, summarize_pre _ (clean_text_fix text) n,
    summarize_full _ n⟩

/-- Witness for C7 at a concrete record. -/
theorem claim_C7_witness :
    ∃ ct, (build_record trivCollab url0 none (txt "hello  world") none).text =
        some ct ∧
      (build_record trivCollab url0 none (txt "hello  world") none).summary_50 =
        some (summarize ct 50) ∧
      (build_record trivCollab url0 none (txt "hello  world") none).summary_100 =
        some (summarize ct 100) ∧
      (build_record trivCollab url0 none (txt "hello  world") none).summary_150 =
        some (summarize ct 150) ∧
      ∀ n ∈ [50, 100, 150],
        (pySplit (summarize ct n)).length ≤ n ∧
          summarize ct n <+: ct ∧
          ((pySplit ct).length ≤ n → summarize ct n = ct) :=
  claim_C7 trivCollab url0 none (txt "hello  world") none

/-- C8: `compute_sentiment` stays within [-1, 1] whenever the scorer's
documented contract does (TextBlob polarity is in [-1, 1]); it is exactly 0
on empty text, and exactly 0 when the scorer raises, instead of propagating
the exception. -/
theorem claim_C8 (polarity : Str → Option ℚ)
    (hpol : ∀ s q, polarity s = some q → -1 ≤ q ∧ q ≤ 1) (t : Str) :
    (-1 ≤ compute_sentiment polarity t ∧ compute_sentiment polarity t ≤ 1) ∧
      (t = [] → compute_sentiment polarity t = 0) ∧
      (polarity t = none → compute_sentiment polarity t = 0) := by
  unfold compute_sentiment
  by_cases he : t.isEmpty
  · simp only [he, if_pos]
    norm_num
  · have hne : t.isEmpty = false := by simpa using he
    rw [hne]
    cases hp : polarity t with
    | none =>
      simp only
      refine ⟨by norm_num, ?_, fun _ => rfl⟩
      intro h0
      subst h0
      simp at hne
    | some q =>
      simp only
      refine ⟨hpol t q hp, ?_, ?_⟩
      · intro h0
        subst h0
        simp at hne
      · intro h0
        exact nomatch h0

/-- Witness for C8: the always-raising scorer. -/
theorem claim_C8_witness :
    (-1 ≤ compute_sentiment (fun _ => none) (txt "x") ∧
        compute_sentiment (fun _ => none) (txt "x") ≤ 1) ∧
      compute_sentiment (fun _ => none) (txt "x") = 0 :=
  ⟨(claim_C8 (fun _ => none) (fun _ _ h => nomatch h) (txt "x")).1,
   (claim_C8 (fun _ => none) (fun _ _ h => nomatch h) (txt "x")).2.2 rfl⟩
